import Mathlib

/-!
Shallow embedding of the DFA engine of `dfa_simulator.py` and the URL grammar
automaton of `url_validator.py`, together with theorems settling the spec's
claims about them.

Conventions of the embedding:
* Python states and symbols are strings; the engine's input iterates the
  characters of a string, so an engine input is a list of one-character
  symbols.  Python sets are modelled as lists (content, not order, matters),
  and a Python dict as an association list with `List.lookup`.
* `DFA.process_string` raises `ValueError` on an out-of-alphabet symbol; this
  is modelled with `Except RunError`.
* The persistence codec works on the in-memory JSON document (the `Document`
  structure); file I/O itself is outside the embedding.
-/

deriving instance DecidableEq for Except

namespace DfaSimulator

/-- The `DFA` class of `dfa_simulator.py`: states, alphabet, transition
function (a dict keyed by (state, symbol) pairs), start state, accept states. -/
structure DFA where
  states : List String
  alphabet : List String
  transition_function : List ((String × String) × String)
  start_state : String
  accept_states : List String
deriving Repr, DecidableEq

/-- `DFA.__init__`: stores the five components verbatim; the reference
implementation performs no validation of the structural invariants. -/
def DFA.init (states alphabet : List String)
    (transition_function : List ((String × String) × String))
    (start_state : String) (accept_states : List String) : DFA :=
  ⟨states, alphabet, transition_function, start_state, accept_states⟩

/-- The `ValueError` raised by `process_string` on a symbol outside the
alphabet. -/
inductive RunError where
  | unknownSymbol : String → RunError
deriving Repr, DecidableEq

/-- The loop of `DFA.process_string`: for each symbol, raise on an
out-of-alphabet symbol, stop with `False` and the trace so far on an undefined
transition, otherwise step and append the new state to the trace.  After the
loop, accept iff the current state is an accept state. -/
def processLoop (d : DFA) (current : String) (trace : List String) :
    List String → Except RunError (Bool × List String)
  | [] => .ok (decide (current ∈ d.accept_states), trace)
  | s :: rest =>
    if s ∈ d.alphabet then
      match d.transition_function.lookup (current, s) with
      | none => .ok (false, trace)
      | some next => processLoop d next (trace ++ [next]) rest
    else .error (.unknownSymbol s)

/-- `DFA.process_string`: run the input symbols from the start state, the
trace initialised to `[start_state]`. -/
def DFA.process_string (d : DFA) (input : List String) :
    Except RunError (Bool × List String) :=
  processLoop d d.start_state [d.start_state] input

/-! ### Persistence codec (`save_to_file` / `load_from_file`) -/

/-- The JSON document shape written by `save_to_file` and read by
`load_from_file`. -/
structure Document where
  states : List String
  alphabet : List String
  transition_function : List (String × String)
  start_state : String
  accept_states : List String
deriving Repr, DecidableEq

/-- The composite key `f"{state},{symbol}"` used by `save_to_file`. -/
def encodeKey (state symbol : String) : String :=
  state ++ "," ++ symbol

/-- `DFA.save_to_file`'s in-memory document: list the sets and encode each
transition entry under its composite key. -/
def DFA.encode (d : DFA) : Document :=
  { states := d.states
    alphabet := d.alphabet
    transition_function :=
      d.transition_function.map (fun e => (encodeKey e.1.1 e.1.2, e.2))
    start_state := d.start_state
    accept_states := d.accept_states }

/-- Python's `key.split(",")`: split the character list on every comma. -/
def pySplit (s : String) : List String :=
  (s.data.splitOn ',').map String.mk

/-- The `ValueError` raised by `state, symbol = key.split(",")` when the key
does not split into exactly two parts. -/
inductive DecodeError where
  | badKey : String → DecodeError
deriving Repr, DecidableEq

/-- The loop of `load_from_file` over the document's transition entries: each
composite key must split into exactly a state and a symbol. -/
def decodeEntries : List (String × String) →
    Except DecodeError (List ((String × String) × String))
  | [] => .ok []
  | (key, v) :: rest =>
    match pySplit key with
    | [state, symbol] =>
      (decodeEntries rest).map (fun tl => ((state, symbol), v) :: tl)
    | _ => .error (.badKey key)

/-- `DFA.load_from_file` on an already-parsed document: rebuild the sets and
split each composite transition key. -/
def decode (doc : Document) : Except DecodeError DFA := do
  let tf ← decodeEntries doc.transition_function
  return { states := doc.states
           alphabet := doc.alphabet
           transition_function := tf
           start_state := doc.start_state
           accept_states := doc.accept_states }

/-- The four structural invariants of the spec's data model (§3): the start
state is a state, the accept states are states, every transition source and
destination is a state, and every transition symbol is in the alphabet. -/
def DFA.valid (d : DFA) : Prop :=
  d.start_state ∈ d.states ∧
  (∀ a ∈ d.accept_states, a ∈ d.states) ∧
  (∀ e ∈ d.transition_function, e.1.1 ∈ d.states ∧ e.2 ∈ d.states) ∧
  (∀ e ∈ d.transition_function, e.1.2 ∈ d.alphabet)

instance (d : DFA) : Decidable d.valid := by
  unfold DFA.valid; infer_instance

end DfaSimulator

namespace UrlValidator

/-- The apostrophe character, written by code point to keep source literals
plain. -/
def apos : Char := Char.ofNat 39

/-- The alphabet of `UrlDFA.__init__`: letters, digits and the URL
punctuation set. -/
def urlAlphabet : List Char :=
  "abcdefghijklmnopqrstuvwxyzABCDEFGHIJKLMNOPQRSTUVWXYZ0123456789-._~:/?#[]@!$&".data
    ++ [apos] ++ "()*+,;=%".data

/-- Characters on which `authority` loops to itself. -/
def authoritySelf : List Char :=
  "abcdefghijklmnopqrstuvwxyzABCDEFGHIJKLMNOPQRSTUVWXYZ0123456789-._".data

/-- Characters on which `path` loops to itself. -/
def pathSelf : List Char :=
  "abcdefghijklmnopqrstuvwxyzABCDEFGHIJKLMNOPQRSTUVWXYZ0123456789-._~:/@!$&".data
    ++ [apos] ++ "()*+,;=%".data

/-- Characters on which `query` loops to itself. -/
def querySelf : List Char :=
  "abcdefghijklmnopqrstuvwxyzABCDEFGHIJKLMNOPQRSTUVWXYZ0123456789-._~:/?@!$&".data
    ++ [apos] ++ "()*+,;=%".data

/-- Characters on which `fragment` loops to itself. -/
def fragmentSelf : List Char :=
  "abcdefghijklmnopqrstuvwxyzABCDEFGHIJKLMNOPQRSTUVWXYZ0123456789-._~:/?@!$&".data
    ++ [apos] ++ "()*+,;=%#".data

/-- `start` transitions: `h` goes to `scheme`, everything else to
`rejected`. -/
def startRow : List ((String × Char) × String) :=
  urlAlphabet.map (fun c => (("start", c), if c = 'h' then "scheme" else "rejected"))

/-- `scheme` transitions: explicit entries for `t`, `p`, `s`, `:`, then every
character outside `tps:` goes to `rejected`. -/
def schemeRow : List ((String × Char) × String) :=
  [(("scheme", 't'), "scheme"), (("scheme", 'p'), "scheme"),
   (("scheme", 's'), "scheme"), (("scheme", ':'), "scheme_separator")]
  ++ (urlAlphabet.filter (fun c => !("tps:".data.contains c))).map
      (fun c => (("scheme", c), "rejected"))

/-- `scheme_separator` transitions: `/` loops, every character outside `/:`
goes to `authority`; note that `:` receives no entry at all. -/
def schemeSeparatorRow : List ((String × Char) × String) :=
  (("scheme_separator", '/'), "scheme_separator")
  :: (urlAlphabet.filter (fun c => !("/:".data.contains c))).map
      (fun c => (("scheme_separator", c), "authority"))

/-- `authority` transitions. -/
def authorityRow : List ((String × Char) × String) :=
  urlAlphabet.map (fun c =>
    (("authority", c),
      if c ∈ authoritySelf then "authority"
      else if c = '/' then "path"
      else if c = '?' then "query"
      else if c = '#' then "fragment"
      else "rejected"))

/-- `path` transitions. -/
def pathRow : List ((String × Char) × String) :=
  urlAlphabet.map (fun c =>
    (("path", c),
      if c ∈ pathSelf then "path"
      else if c = '?' then "query"
      else if c = '#' then "fragment"
      else "rejected"))

/-- `query` transitions. -/
def queryRow : List ((String × Char) × String) :=
  urlAlphabet.map (fun c =>
    (("query", c),
      if c ∈ querySelf then "query"
      else if c = '#' then "fragment"
      else "rejected"))

/-- `fragment` transitions. -/
def fragmentRow : List ((String × Char) × String) :=
  urlAlphabet.map (fun c =>
    (("fragment", c), if c ∈ fragmentSelf then "fragment" else "rejected"))

/-- The `UrlDFA` class of `url_validator.py`. -/
structure UrlDFA where
  states : List String
  alphabet : List Char
  transition_function : List ((String × Char) × String)
  start_state : String
  accept_states : List String

/-- The single instance built by `UrlDFA.__init__`. -/
def urlDFA : UrlDFA :=
  { states := ["start", "scheme", "scheme_separator", "authority", "path",
               "query", "fragment", "rejected"]
    alphabet := urlAlphabet
    transition_function :=
      startRow ++ schemeRow ++ schemeSeparatorRow ++ authorityRow
        ++ pathRow ++ queryRow ++ fragmentRow
    start_state := "start"
    accept_states := ["authority", "path", "query", "fragment"] }

/-- The loop of `UrlDFA.validate_url`: an out-of-alphabet character or a
missing transition returns `False` with `rejected` appended to the trace;
otherwise step, append, and stop with `False` as soon as the state `rejected`
is entered. -/
def validateLoop (u : UrlDFA) (current : String) (trace : List String) :
    List Char → Bool × List String
  | [] => (decide (current ∈ u.accept_states), trace)
  | c :: rest =>
    if c ∈ u.alphabet then
      match u.transition_function.lookup (current, c) with
      | none => (false, trace ++ ["rejected"])
      | some next =>
        if next = "rejected" then (false, trace ++ [next])
        else validateLoop u next (trace ++ [next]) rest
    else (false, trace ++ ["rejected"])

/-- `UrlDFA.validate_url`: run the characters of `url` from the start state. -/
def UrlDFA.validate_url (u : UrlDFA) (url : String) : Bool × List String :=
  validateLoop u u.start_state [u.start_state] url.data

/-- The non-sink states of the URL grammar. -/
def nonSinkStates : List String :=
  ["start", "scheme", "scheme_separator", "authority", "path", "query",
   "fragment"]

end UrlValidator

namespace DfaSimulator

/-- C1 counterexample: the claim says a tuple whose accept set contains the
label `ghost` absent from the states fails construction with an
`InvalidAutomaton` error; in the code `DFA.__init__` returns a fully usable
automaton with exactly those components, and `process_string` happily runs
on it. -/
theorem C1_counterexample :
    ("ghost" ∈ (DFA.init ["q0"] ["a"] [(("q0", "a"), "q0")] "q0" ["q0", "ghost"]).accept_states ∧
     "ghost" ∉ (DFA.init ["q0"] ["a"] [(("q0", "a"), "q0")] "q0" ["q0", "ghost"]).states) ∧
    DFA.init ["q0"] ["a"] [(("q0", "a"), "q0")] "q0" ["q0", "ghost"] =
      ⟨["q0"], ["a"], [(("q0", "a"), "q0")], "q0", ["q0", "ghost"]⟩ ∧
    (DFA.init ["q0"] ["a"] [(("q0", "a"), "q0")] "q0" ["q0", "ghost"]).process_string ["a"] =
      .ok (true, ["q0", "q0"]) := by
  decide

/-- C1 amended: construction performs no validation: even when the accept
set is not a subset of the state set, `DFA.__init__` returns an automaton
carrying the five components verbatim instead of failing. -/
theorem C1_no_validation (states alphabet : List String)
    (tf : List ((String × String) × String)) (start : String)
    (accept : List String) (h : ¬ ∀ a ∈ accept, a ∈ states) :
    (DFA.init states alphabet tf start accept).states = states ∧
    (DFA.init states alphabet tf start accept).alphabet = alphabet ∧
    (DFA.init states alphabet tf start accept).transition_function = tf ∧
    (DFA.init states alphabet tf start accept).start_state = start ∧
    (DFA.init states alphabet tf start accept).accept_states = accept :=
  ⟨rfl, rfl, rfl, rfl, rfl⟩

/-- Witness for `C1_no_validation` at a concrete invalid tuple. -/
theorem C1_no_validation_witness :
    (¬ ∀ a ∈ ["q0", "ghost"], a ∈ ["q0"]) ∧
    ((DFA.init ["q0"] ["a"] [] "q0" ["q0", "ghost"]).states = ["q0"] ∧
     (DFA.init ["q0"] ["a"] [] "q0" ["q0", "ghost"]).alphabet = ["a"] ∧
     (DFA.init ["q0"] ["a"] [] "q0" ["q0", "ghost"]).transition_function = [] ∧
     (DFA.init ["q0"] ["a"] [] "q0" ["q0", "ghost"]).start_state = "q0" ∧
     (DFA.init ["q0"] ["a"] [] "q0" ["q0", "ghost"]).accept_states = ["q0", "ghost"]) :=
  ⟨by decide, C1_no_validation ["q0"] ["a"] [] "q0" ["q0", "ghost"] (by decide)⟩

/-- C4: when the loop of `process_string` reaches a symbol `s` of the
alphabet with no transition entry for `(current, s)`, it returns
`accepted = false` with the trace accumulated so far, ignoring the remaining
input; no hypothesis on `current` being accepting is needed. -/
theorem C4_undefined_transition_stops (d : DFA) (current : String)
    (trace : List String) (s : String) (rest : List String)
    (hs : s ∈ d.alphabet)
    (hnone : d.transition_function.lookup (current, s) = none) :
    processLoop d current trace (s :: rest) = .ok (false, trace) := by
  unfold processLoop
  rw [if_pos hs, hnone]

/-- Witness for `C4_undefined_transition_stops`: the current state is even an
accept state, yet the verdict is `false` and the pending input is dropped. -/
theorem C4_witness :
    processLoop ⟨["q0"], ["a"], [], "q0", ["q0"]⟩ "q0" ["q0"] ["a", "a"] =
      .ok (false, ["q0"]) :=
  C4_undefined_transition_stops ⟨["q0"], ["a"], [], "q0", ["q0"]⟩ "q0" ["q0"]
    "a" ["a"] (by decide) (by decide)

/-- C5 counterexample: the input `["a", "z"]` contains the out-of-alphabet
symbol `z`, but the undefined transition on `a` stops the run first, so
`process_string` returns an ordinary `false` verdict and never raises
`UnknownSymbol`. -/
theorem C5_counterexample :
    "z" ∉ (DFA.init ["q0"] ["a"] [] "q0" ["q0"]).alphabet ∧
    "z" ∈ ["a", "z"] ∧
    (DFA.init ["q0"] ["a"] [] "q0" ["q0"]).process_string ["a", "z"] =
      .ok (false, ["q0"]) := by
  decide

/-- C5 amended: when the loop of `process_string` reaches a symbol outside
the alphabet it raises `UnknownSymbol` for that symbol at once, consuming
nothing further; an undefined transition strictly earlier in the run instead
stops the run with a `false` verdict before the unknown symbol is reached. -/
theorem C5_unknown_symbol_raises (d : DFA) (current : String)
    (trace : List String) (s : String) (rest : List String)
    (hs : s ∉ d.alphabet) :
    processLoop d current trace (s :: rest) = .error (.unknownSymbol s) := by
  unfold processLoop
  rw [if_neg hs]

/-- Witness for `C5_unknown_symbol_raises`. -/
theorem C5_witness :
    processLoop ⟨["q0"], ["a"], [], "q0", ["q0"]⟩ "q0" ["q0"] ["z"] =
      .error (.unknownSymbol "z") :=
  C5_unknown_symbol_raises ⟨["q0"], ["a"], [], "q0", ["q0"]⟩ "q0" ["q0"]
    "z" [] (by decide)

/-- C6: on the empty input, `process_string` returns
`accepted = (start_state ∈ accept_states)` and the trace `[start_state]`. -/
theorem C6_empty_input (d : DFA) :
    d.process_string [] =
      .ok (decide (d.start_state ∈ d.accept_states), [d.start_state]) :=
  rfl

/-- C7: `process_string` is pure: its result is a function of the five
components of the automaton and the input alone, so two automata with equal
components (in particular, the same automaton on repeated calls) produce
identical `(accepted, trace)` results, and no field is ever mutated. -/
theorem C7_pure (d1 d2 : DFA) (input : List String)
    (hst : d1.states = d2.states) (hal : d1.alphabet = d2.alphabet)
    (htf : d1.transition_function = d2.transition_function)
    (hss : d1.start_state = d2.start_state)
    (hac : d1.accept_states = d2.accept_states) :
    d1.process_string input = d2.process_string input := by
  cases d1; cases d2
  simp only at hst hal htf hss hac
  subst hst; subst hal; subst htf; subst hss; subst hac
  rfl

/-- Witness for `C7_pure` at two structurally equal automata. -/
theorem C7_witness :
    (DFA.init ["q0"] ["a"] [(("q0", "a"), "q0")] "q0" ["q0"]).process_string ["a"] =
      (DFA.mk ["q0"] ["a"] [(("q0", "a"), "q0")] "q0" ["q0"]).process_string ["a"] :=
  C7_pure (DFA.init ["q0"] ["a"] [(("q0", "a"), "q0")] "q0" ["q0"])
    (DFA.mk ["q0"] ["a"] [(("q0", "a"), "q0")] "q0" ["q0"]) ["a"]
    rfl rfl rfl rfl rfl

end DfaSimulator

namespace DfaSimulator

/-- Splitting a comma-joined pair of comma-free character lists recovers the
pair. -/
theorem splitOn_comma_pair (a b : List Char) (ha : ',' ∉ a) (hb : ',' ∉ b) :
    (a ++ [','] ++ b).splitOn ',' = [a, b] := by
  have h := @List.splitOn_intercalate Char [a, b] _ ','
    (by intro l hl; simp at hl; rcases hl with rfl | rfl <;> assumption) (by simp)
  have h2 : [','].intercalate [a, b] = a ++ [','] ++ b := by
    simp [List.intercalate, List.intersperse]
  rwa [h2] at h

/-- `key.split(",")` undoes the composite-key encoding exactly when neither
the state nor the symbol contains a comma. -/
theorem pySplit_encodeKey (q s : String) (hq : ',' ∉ q.data) (hs : ',' ∉ s.data) :
    pySplit (encodeKey q s) = [q, s] := by
  unfold pySplit encodeKey
  have hdata : (q ++ "," ++ s).data = q.data ++ [','] ++ s.data := by
    simp [String.data_append]
  rw [hdata, splitOn_comma_pair q.data s.data hq hs]
  rfl

/-- Decoding the encoded transition entries recovers them exactly when every
key part is comma-free. -/
theorem decodeEntries_encode (tf : List ((String × String) × String))
    (h : ∀ e ∈ tf, ',' ∉ e.1.1.data ∧ ',' ∉ e.1.2.data) :
    decodeEntries (tf.map (fun e => (encodeKey e.1.1 e.1.2, e.2))) = .ok tf := by
  induction tf with
  | nil => rfl
  | cons e rest ih =>
    obtain ⟨⟨q, s⟩, v⟩ := e
    have he := h ((q, s), v) (List.mem_cons_self _ _)
    have hrest := ih (fun e2 he2 => h e2 (List.mem_cons_of_mem _ he2))
    simp only [List.map_cons]
    unfold decodeEntries
    rw [pySplit_encodeKey q s he.1 he.2, hrest]
    rfl

/-- C2 counterexample: the automaton with the single symbol `,` is
structurally valid, yet decoding its encoding fails (the composite key
`q0,,` does not split back into a state and a symbol), so
`decode(encode(a)) = a` does not hold for every structurally valid `a`. -/
theorem C2_counterexample :
    (DFA.init ["q0"] [","] [(("q0", ","), "q0")] "q0" ["q0"]).valid ∧
    decode (DFA.init ["q0"] [","] [(("q0", ","), "q0")] "q0" ["q0"]).encode =
      .error (.badKey "q0,,") := by
  constructor
  · decide
  · rfl

/-- C2 amended: for every automaton whose transition keys mention no state or
symbol containing the separator character `,`, decoding the encoded document
returns the automaton itself (exact structural equality, which implies the
claimed set/mapping-content equality). -/
theorem C2_roundtrip (d : DFA)
    (h : ∀ e ∈ d.transition_function, ',' ∉ e.1.1.data ∧ ',' ∉ e.1.2.data) :
    decode d.encode = .ok d := by
  unfold decode DFA.encode
  simp only
  rw [decodeEntries_encode d.transition_function h]
  rfl

/-- Witness for `C2_roundtrip` at a concrete two-state automaton. -/
theorem C2_roundtrip_witness :
    (∀ e ∈ (DFA.init ["q0", "q1"] ["a", "b"]
        [(("q0", "a"), "q1"), (("q1", "b"), "q0")] "q0" ["q1"]).transition_function,
      ',' ∉ e.1.1.data ∧ ',' ∉ e.1.2.data) ∧
    decode (DFA.init ["q0", "q1"] ["a", "b"]
        [(("q0", "a"), "q1"), (("q1", "b"), "q0")] "q0" ["q1"]).encode =
      .ok (DFA.init ["q0", "q1"] ["a", "b"]
        [(("q0", "a"), "q1"), (("q1", "b"), "q0")] "q0" ["q1"]) :=
  ⟨by decide, C2_roundtrip (DFA.init ["q0", "q1"] ["a", "b"]
    [(("q0", "a"), "q1"), (("q1", "b"), "q0")] "q0" ["q1"]) (by decide)⟩

end DfaSimulator

namespace UrlValidator

/-- Step lemma: an out-of-alphabet character returns `False` with `rejected`
appended. -/
theorem validateLoop_cons_notin (u : UrlDFA) (current : String)
    (trace : List String) (c : Char) (rest : List Char) (h : c ∉ u.alphabet) :
    validateLoop u current trace (c :: rest) = (false, trace ++ ["rejected"]) := by
  unfold validateLoop
  rw [if_neg h]

/-- Step lemma: a missing transition entry returns `False` with `rejected`
appended. -/
theorem validateLoop_cons_none (u : UrlDFA) (current : String)
    (trace : List String) (c : Char) (rest : List Char) (h : c ∈ u.alphabet)
    (hl : u.transition_function.lookup (current, c) = none) :
    validateLoop u current trace (c :: rest) = (false, trace ++ ["rejected"]) := by
  unfold validateLoop
  rw [if_pos h, hl]

/-- Step lemma: stepping into `rejected` stops at once with `False`. -/
theorem validateLoop_cons_rejected (u : UrlDFA) (current : String)
    (trace : List String) (c : Char) (rest : List Char) (h : c ∈ u.alphabet)
    (hl : u.transition_function.lookup (current, c) = some "rejected") :
    validateLoop u current trace (c :: rest) = (false, trace ++ ["rejected"]) := by
  unfold validateLoop
  rw [if_pos h, hl]
  rfl

/-- Step lemma: a defined transition into a state other than `rejected`
appends it to the trace and continues. -/
theorem validateLoop_cons_step (u : UrlDFA) (current : String)
    (trace : List String) (c : Char) (rest : List Char) (next : String)
    (h : c ∈ u.alphabet)
    (hl : u.transition_function.lookup (current, c) = some next)
    (hnr : next ≠ "rejected") :
    validateLoop u current trace (c :: rest) =
      validateLoop u next (trace ++ [next]) rest := by
  unfold validateLoop
  rw [if_pos h, hl]
  simp only [hnr]
  cases rest <;> rfl

set_option maxRecDepth 40000 in
/-- C3 counterexample: `:` is in the declared alphabet and `scheme_separator`
is a non-sink state, yet the built table has no entry at all for
`('scheme_separator', ':')` — the pair the claim says is defined and mapped
to `rejected`. -/
theorem C3_counterexample :
    ':' ∈ urlDFA.alphabet ∧ "scheme_separator" ∈ nonSinkStates ∧
    urlDFA.transition_function.lookup ("scheme_separator", ':') = none := by
  decide

/-- Any member of one of the seven rows is in the table. -/
theorem mem_table (p : (String × Char) × String)
    (h : p ∈ startRow ∨ p ∈ schemeRow ∨ p ∈ schemeSeparatorRow ∨
      p ∈ authorityRow ∨ p ∈ pathRow ∨ p ∈ queryRow ∨ p ∈ fragmentRow) :
    p ∈ urlDFA.transition_function := by
  show p ∈ startRow ++ schemeRow ++ schemeSeparatorRow ++ authorityRow
    ++ pathRow ++ queryRow ++ fragmentRow
  simp only [List.mem_append]
  tauto

/-- C3 amended: the URL grammar's transition table is defined for every pair
of a non-sink state and an alphabet symbol except `('scheme_separator', ':')`,
which has no entry (the engine's missing-transition branch turns it into a
rejection instead). -/
theorem C3_totality (q : String) (hq : q ∈ nonSinkStates) (c : Char)
    (hc : c ∈ urlDFA.alphabet) (hne : ¬(q = "scheme_separator" ∧ c = ':')) :
    (urlDFA.transition_function.lookup (q, c)).isSome = true := by
  have hc2 : c ∈ urlAlphabet := hc
  rw [List.lookup_isSome_iff]
  simp only [nonSinkStates, List.mem_cons, List.not_mem_nil, or_false] at hq
  rcases hq with rfl | rfl | rfl | rfl | rfl | rfl | rfl
  · exact ⟨(("start", c), _),
      mem_table _ (Or.inl (List.mem_map.2 ⟨c, hc2, rfl⟩)), by simp⟩
  · by_cases ht : c = 't'
    · subst ht
      exact ⟨(("scheme", 't'), "scheme"),
        mem_table _ (Or.inr (Or.inl (by simp [schemeRow]))), by simp⟩
    · by_cases hp : c = 'p'
      · subst hp
        exact ⟨(("scheme", 'p'), "scheme"),
          mem_table _ (Or.inr (Or.inl (by simp [schemeRow]))), by simp⟩
      · by_cases hs : c = 's'
        · subst hs
          exact ⟨(("scheme", 's'), "scheme"),
            mem_table _ (Or.inr (Or.inl (by simp [schemeRow]))), by simp⟩
        · by_cases hcol : c = ':'
          · subst hcol
            exact ⟨(("scheme", ':'), "scheme_separator"),
              mem_table _ (Or.inr (Or.inl (by simp [schemeRow]))), by simp⟩
          · have hdata : "tps:".data = ['t', 'p', 's', ':'] := rfl
            have hmemf : c ∈ urlAlphabet.filter (fun x => !("tps:".data.contains x)) :=
              List.mem_filter.2 ⟨hc2, by
                simp [hdata]
                exact ⟨ht, hp, hs, hcol⟩⟩
            exact ⟨(("scheme", c), "rejected"),
              mem_table _ (Or.inr (Or.inl (List.mem_append.2
                (Or.inr (List.mem_map.2 ⟨c, hmemf, rfl⟩))))), by simp⟩
  · have hcol : c ≠ ':' := fun h => hne ⟨rfl, h⟩
    by_cases hsl : c = '/'
    · subst hsl
      exact ⟨(("scheme_separator", '/'), "scheme_separator"),
        mem_table _ (Or.inr (Or.inr (Or.inl (by simp [schemeSeparatorRow])))), by simp⟩
    · have hdata : "/:".data = ['/', ':'] := rfl
      have hmemf : c ∈ urlAlphabet.filter (fun x => !("/:".data.contains x)) :=
        List.mem_filter.2 ⟨hc2, by
          simp [hdata]
          exact ⟨hsl, hcol⟩⟩
      exact ⟨(("scheme_separator", c), "authority"),
        mem_table _ (Or.inr (Or.inr (Or.inl (List.mem_cons_of_mem _
          (List.mem_map.2 ⟨c, hmemf, rfl⟩))))), by simp⟩
  · exact ⟨(("authority", c), _),
      mem_table _ (Or.inr (Or.inr (Or.inr (Or.inl (List.mem_map.2 ⟨c, hc2, rfl⟩))))), by simp⟩
  · exact ⟨(("path", c), _),
      mem_table _ (Or.inr (Or.inr (Or.inr (Or.inr (Or.inl
        (List.mem_map.2 ⟨c, hc2, rfl⟩)))))), by simp⟩
  · exact ⟨(("query", c), _),
      mem_table _ (Or.inr (Or.inr (Or.inr (Or.inr (Or.inr (Or.inl
        (List.mem_map.2 ⟨c, hc2, rfl⟩))))))), by simp⟩
  · exact ⟨(("fragment", c), _),
      mem_table _ (Or.inr (Or.inr (Or.inr (Or.inr (Or.inr (Or.inr
        (List.mem_map.2 ⟨c, hc2, rfl⟩))))))), by simp⟩


set_option maxRecDepth 40000 in
/-- Witness for `C3_totality` at the pair `('path', '/')`. -/
theorem C3_totality_witness :
    (urlDFA.transition_function.lookup ("path", '/')).isSome = true :=
  C3_totality "path" (by decide) '/' (by decide) (by decide)

set_option maxRecDepth 40000 in
/-- C8: the URL grammar accepts `https://example.com/path?q=1#frag`, and the
trace of the run ends in the state `fragment`. -/
theorem C8_concrete_url :
    (urlDFA.validate_url "https://example.com/path?q=1#frag").1 = true ∧
    (urlDFA.validate_url "https://example.com/path?q=1#frag").2.getLast? =
      some "fragment" := by
  decide

/-- Helper for C9: once the loop hits an out-of-alphabet character (or stops
for any rejecting reason first), the verdict is `False` and the trace ends in
`rejected`. -/
theorem validateLoop_unknown_char (u : UrlDFA) (current : String)
    (trace : List String) (input : List Char) :
    (∃ c ∈ input, c ∉ u.alphabet) →
    (validateLoop u current trace input).1 = false ∧
    ∃ pre, (validateLoop u current trace input).2 = pre ++ ["rejected"] := by
  induction input generalizing current trace with
  | nil => intro hc; simp at hc
  | cons c rest ih =>
    intro hc
    by_cases hca : c ∈ u.alphabet
    · have hrest : ∃ x ∈ rest, x ∉ u.alphabet := by
        rcases hc with ⟨c2, hmem, hnot⟩
        rcases List.mem_cons.1 hmem with heq | hmem2
        · exact absurd (heq ▸ hca) hnot
        · exact ⟨c2, hmem2, hnot⟩
      cases hlook : u.transition_function.lookup (current, c) with
      | none =>
        rw [validateLoop_cons_none u current trace c rest hca hlook]
        exact ⟨rfl, trace, rfl⟩
      | some next =>
        by_cases hnr : next = "rejected"
        · subst hnr
          rw [validateLoop_cons_rejected u current trace c rest hca hlook]
          exact ⟨rfl, trace, rfl⟩
        · rw [validateLoop_cons_step u current trace c rest next hca hlook hnr]
          exact ih next (trace ++ [next]) hrest
    · rw [validateLoop_cons_notin u current trace c rest hca]
      exact ⟨rfl, trace, rfl⟩

/-- C9: on any input containing a character outside the URL grammar's
alphabet, `validate_url` (a total function: it raises nothing) returns the
verdict `False` and a trace consisting of the states visited so far followed
by the sentinel `rejected`. -/
theorem C9_structured_rejection (url : String)
    (h : ∃ c ∈ url.data, c ∉ urlDFA.alphabet) :
    (urlDFA.validate_url url).1 = false ∧
    ∃ pre, (urlDFA.validate_url url).2 = pre ++ ["rejected"] :=
  validateLoop_unknown_char urlDFA urlDFA.start_state [urlDFA.start_state]
    url.data h

set_option maxRecDepth 40000 in
/-- Witness for `C9_structured_rejection` at the input `" "` (a space is not
in the URL alphabet). -/
theorem C9_witness :
    (urlDFA.validate_url " ").1 = false ∧
    ∃ pre, (urlDFA.validate_url " ").2 = pre ++ ["rejected"] :=
  C9_structured_rejection " " (by decide)

/-- Helper for C10: `rejected`-freeness of the trace and current state is
preserved by the loop, so `rejected` can only ever be the final appended
element and forces a `False` verdict. -/
theorem validateLoop_rejected_inv (u : UrlDFA) (current : String)
    (trace : List String) (input : List Char) :
    current ≠ "rejected" → "rejected" ∉ trace →
    ((validateLoop u current trace input).2.count "rejected" ≤ 1 ∧
     ("rejected" ∈ (validateLoop u current trace input).2 →
       (validateLoop u current trace input).2.getLast? = some "rejected" ∧
       (validateLoop u current trace input).1 = false)) := by
  induction input generalizing current trace with
  | nil =>
    intro hcur htr
    refine ⟨?_, fun hmem => absurd hmem htr⟩
    show trace.count "rejected" ≤ 1
    rw [List.count_eq_zero.2 htr]
    exact Nat.zero_le 1
  | cons c rest ih =>
    intro hcur htr
    have hstop : (trace ++ ["rejected"]).count "rejected" ≤ 1 ∧
        ("rejected" ∈ (trace ++ ["rejected"]) →
          (trace ++ ["rejected"]).getLast? = some "rejected" ∧
          (false : Bool) = false) := by
      refine ⟨?_, fun _ => ⟨List.getLast?_concat trace, rfl⟩⟩
      rw [List.count_append, List.count_eq_zero.2 htr]
      simp
    by_cases hca : c ∈ u.alphabet
    · cases hlook : u.transition_function.lookup (current, c) with
      | none =>
        rw [validateLoop_cons_none u current trace c rest hca hlook]
        exact hstop
      | some next =>
        by_cases hnr : next = "rejected"
        · subst hnr
          rw [validateLoop_cons_rejected u current trace c rest hca hlook]
          exact hstop
        · rw [validateLoop_cons_step u current trace c rest next hca hlook hnr]
          have htr2 : "rejected" ∉ trace ++ [next] := by
            intro hmem
            rcases List.mem_append.1 hmem with hmem2 | hmem2
            · exact htr hmem2
            · exact hnr (List.mem_singleton.1 hmem2).symm
          exact ih next (trace ++ [next]) hnr htr2
    · rw [validateLoop_cons_notin u current trace c rest hca]
      exact hstop

/-- C10: in every trace returned by `validate_url`, the state `rejected`
occurs at most once, and when it occurs it is the final element of the trace
and the verdict is `False`. -/
theorem C10_rejected_final (url : String) :
    ((urlDFA.validate_url url).2.count "rejected" ≤ 1 ∧
     ("rejected" ∈ (urlDFA.validate_url url).2 →
       (urlDFA.validate_url url).2.getLast? = some "rejected" ∧
       (urlDFA.validate_url url).1 = false)) :=
  validateLoop_rejected_inv urlDFA urlDFA.start_state [urlDFA.start_state]
    url.data (by decide) (by decide)

set_option maxRecDepth 40000 in
/-- Witness for `C10_rejected_final` at the input `"ftp"`, whose run does
enter `rejected`. -/
theorem C10_witness :
    ((urlDFA.validate_url "ftp").2.count "rejected" ≤ 1 ∧
     ("rejected" ∈ (urlDFA.validate_url "ftp").2 →
       (urlDFA.validate_url "ftp").2.getLast? = some "rejected" ∧
       (urlDFA.validate_url "ftp").1 = false)) :=
  C10_rejected_final "ftp"

end UrlValidator
